import Mathlib

/-!
Verification development for the ai-nexus plugin sandbox, hook orchestrator
and secure-storage vault.

The definitions below are a shallow embedding of:
  * src/services/pluginSandbox.ts  (worker code string + PluginSandbox class),
  * src/components/MainLayout.tsx  (triggerPluginHook, lines 329-349),
  * src/services/secureStorage.ts  (setMasterPassword, verifyMasterPassword,
    saveData, loadData, legacy XOR migration).

Modelling conventions, stated once here:
  * JavaScript JSON-like values are the inductive `JValue`; `undefined` is
    represented by `Option JValue` being `none` at lookup sites.
  * WebCrypto AES-GCM is modelled as an ideal authenticated cipher: a
    ciphertext remembers the key, the IV and the plaintext; decryption with
    any other key fails (AEAD authentication failure), and a tampered
    ciphertext is the constructor `StoredBlob.corrupt`, whose decryption
    always fails.  Randomness (salts, IVs) is passed in as parameters.
  * `JSON.stringify` followed by `JSON.parse` is the identity on JSON
    values, so a plaintext is carried as a structured `Plain` value rather
    than a string; a plaintext that is not valid JSON (the verifier
    constant, or XOR garbage) is a `Plain` on which `parsePlain` fails,
    mirroring `JSON.parse` throwing.
  * Promises are modelled by their observable settlement: the host state
    records which tickets are still pending and, for settled tickets, the
    `Outcome` they settled with.
  * The worker's `userHooks` is a plain object literal, so the
    `userHooks[hookName]` read walks the JavaScript prototype chain:
    `workerHookLookup` consults the registered own properties first and
    then the `Object.prototype` members, which are truthy and therefore
    treated by the worker as registered hooks.
-/

/-- A JSON-like JavaScript value (the payloads that flow through hooks and
the vault).  Mirrors what `JSON.parse` can produce. -/
inductive JValue where
  | null
  | bool (b : Bool)
  | num (n : Int)
  | str (s : String)
  | arr (elems : List JValue)
  | obj (fields : List (String × JValue))
deriving Repr

mutual

/-- Structural equality of JSON values (JavaScript strict equality on the
primitives that actually flow through the code; reference identity of
composite values is not modelled). -/
def JValue.beq : JValue → JValue → Bool
  | .null, .null => true
  | .bool a, .bool b => a == b
  | .num a, .num b => a == b
  | .str a, .str b => a == b
  | .arr xs, .arr ys => JValue.beqList xs ys
  | .obj xs, .obj ys => JValue.beqFields xs ys
  | _, _ => false

/-- Elementwise `JValue.beq` on lists. -/
def JValue.beqList : List JValue → List JValue → Bool
  | [], [] => true
  | x :: xs, y :: ys => JValue.beq x y && JValue.beqList xs ys
  | _, _ => false

/-- Fieldwise `JValue.beq` on association lists. -/
def JValue.beqFields : List (String × JValue) → List (String × JValue) → Bool
  | [], [] => true
  | (k1, v1) :: xs, (k2, v2) :: ys => k1 == k2 && JValue.beq v1 v2 && JValue.beqFields xs ys
  | _, _ => false

end

/-- Association-list lookup (JavaScript object / Map key lookup). -/
def alookup {α β : Type} [DecidableEq α] (k : α) : List (α × β) → Option β
  | [] => none
  | (k2, v) :: rest => if k = k2 then some v else alookup k rest

/-- Association-list assignment with JavaScript object semantics: an
existing key keeps its position and gets the new value, a new key is
appended at the end. -/
def aset {α β : Type} [DecidableEq α] (k : α) (v : β) : List (α × β) → List (α × β)
  | [] => [(k, v)]
  | (k2, v2) :: rest => if k = k2 then (k2, v) :: rest else (k2, v2) :: aset k v rest

/-- Property read `v.k` on a JavaScript value; `none` plays the role of
`undefined` (non-objects and missing keys give `undefined`). -/
def JValue.field (v : JValue) (k : String) : Option JValue :=
  match v with
  | .obj fields => alookup k fields
  | _ => none

/-- JavaScript truthiness of a value. -/
def JValue.truthy : JValue → Bool
  | .null => false
  | .bool b => b
  | .num n => n != 0
  | .str s => s ≠ ""
  | .arr _ => true
  | .obj _ => true

/-- Truthiness of a possibly-`undefined` value (`undefined` is falsy). -/
def jsTruthy : Option JValue → Bool
  | none => false
  | some v => v.truthy

/-- `typeof v === 'object' && v !== null` (arrays count as objects). -/
def JValue.isObjectLike : JValue → Bool
  | .obj _ => true
  | .arr _ => true
  | _ => false

/-- The JavaScript spread-assignment `{ ...v, k: x }`.  For an object the
fields are kept in order with `k` overwritten in place (or appended); for a
primitive the spread contributes no fields.  (Index-spreading of strings
and arrays is not modelled; no claim depends on it.) -/
def jsSpreadSet (v : JValue) (k : String) (x : JValue) : JValue :=
  match v with
  | .obj fields => .obj (aset k x fields)
  | _ => .obj [(k, x)]

/-! ## Plugin sandbox: the worker side (src/services/pluginSandbox.ts, workerCode) -/

/-- A hook callback registered by plugin code inside the worker.  Running
it either returns a result or throws an error message.  (A callback's own
`nexus.log` emissions are omitted: `LOG` messages never touch tickets,
which is proved separately on the host side.) -/
def Hook : Type := JValue → Except String JValue

/-- The worker-local state: `let userHooks = {}`, the hook-name to
callback table. -/
structure WorkerState where
  userHooks : List (String × Hook)

/-- One observable action of plugin top-level code when it runs with the
`nexus` capability object: a `nexus.hooks.register(name, callback)` call
(`callback := none` models a non-function argument) or a `nexus.log` call. -/
inductive PluginAction where
  | register (hookName : String) (callback : Option Hook)
  | log (args : List JValue)

/-- Plugin source, abstracted to the sequence of `nexus` actions its
top-level evaluation performs, followed by an optional thrown error
(actions before the throw still take effect). -/
structure PluginCode where
  actions : List PluginAction
  throws : Option String

/-- Messages from the host to the worker (`worker.postMessage`). -/
inductive HostMsg where
  | loadCode (code : PluginCode)
  | executeHook (hookName : String) (data : JValue) (ticket : Nat)

/-- Messages from the worker to the host (`self.postMessage`). -/
inductive WorkerMsg where
  | log (args : List JValue)
  | loadSuccess
  | loadError (error : String)
  | hookResult (ticket : Nat) (result : JValue)
  | hookError (ticket : Nat) (error : String)

/-- `nexus.hooks.register`: a function callback overwrites any existing
entry for the name (`userHooks[hookName] = callback`); a non-function
callback only logs to the worker console and changes nothing. -/
def registerHook (hooks : List (String × Hook)) : PluginAction → List (String × Hook)
  | .register name (some cb) => aset name cb hooks
  | .register _ none => hooks
  | .log _ => hooks

/-- Worker messages emitted by one plugin action (only `nexus.log` posts). -/
def actionMsgs : PluginAction → List WorkerMsg
  | .log args => [.log args]
  | .register _ _ => []

/-- The inherited member of `Object.prototype` that a plain-object
property read finds for these names.  `userHooks` is an object literal,
so `userHooks[hookName]` walks the prototype chain; every standard
`Object.prototype` member is truthy, so the worker treats it as a
registered hook and calls it (sloppy mode, `this` = the worker global).
The outcomes below are representative of that platform behaviour; only
the `toString` case is load-bearing in the theorems:
`Object.prototype.toString` called on the worker global returns the tag
string, which the worker then posts as the hook result. -/
def protoHook : String → Hook
  | "toString" => fun _ => Except.ok (.str "[object DedicatedWorkerGlobalScope]")
  | "toLocaleString" => fun _ => Except.ok (.str "[object DedicatedWorkerGlobalScope]")
  | "valueOf" => fun _ => Except.error "DataCloneError"
  | "hasOwnProperty" => fun _ => Except.ok (.bool false)
  | "isPrototypeOf" => fun _ => Except.ok (.bool false)
  | "propertyIsEnumerable" => fun _ => Except.ok (.bool false)
  | "constructor" => fun data => Except.ok data
  | "__defineGetter__" => fun _ => Except.error "TypeError: getter must be a function"
  | "__defineSetter__" => fun _ => Except.error "TypeError: setter must be a function"
  | "__lookupGetter__" => fun _ => Except.ok .null
  | "__lookupSetter__" => fun _ => Except.ok .null
  | "__proto__" => fun _ => Except.error "TypeError: hook is not a function"
  | _ => fun data => Except.ok data

/-- The prototype-chain part of `userHooks[hookName]`: for the own
property names of `Object.prototype` the read yields the (truthy)
inherited member; for every other name it yields `undefined`. -/
def protoLookup (hookName : String) : Option Hook :=
  if hookName ∈ ["constructor", "hasOwnProperty", "isPrototypeOf",
                 "propertyIsEnumerable", "toLocaleString", "toString", "valueOf",
                 "__defineGetter__", "__defineSetter__", "__lookupGetter__",
                 "__lookupSetter__", "__proto__"] then
    some (protoHook hookName)
  else none

/-- `userHooks[payload.hookName]` with full JavaScript object-read
semantics: an own (registered) property shadows the prototype chain;
otherwise the chain is consulted. -/
def workerHookLookup (hooks : List (String × Hook)) (hookName : String) : Option Hook :=
  match alookup hookName hooks with
  | some h => some h
  | none => protoLookup hookName

/-- The worker's `self.onmessage` handler: returns the new worker state
and the list of messages it posts back to the host, in order. -/
def workerOnMessage (w : WorkerState) (m : HostMsg) : WorkerState × List WorkerMsg :=
  match m with
  | .loadCode code =>
    let hooks := code.actions.foldl registerHook w.userHooks
    let logs := code.actions.flatMap actionMsgs
    match code.throws with
    | some e => (⟨hooks⟩, logs ++ [.loadError e])
    | none => (⟨hooks⟩, logs ++ [.loadSuccess])
  | .executeHook hookName data ticket =>
    match workerHookLookup w.userHooks hookName with
    | some hook =>
      match hook data with
      | .ok result => (w, [.hookResult ticket result])
      | .error e => (w, [.hookError ticket e])
    | none =>
      -- `userHooks[hookName]` was falsy: resolve with the original data.
      (w, [.hookResult ticket data])

/-! ## Plugin sandbox: the host side (class PluginSandbox) -/

/-- How a ticket's promise settled. -/
inductive Outcome where
  | resolved (v : JValue)
  | rejected (e : String)
deriving Repr

/-- Host-side state of one `PluginSandbox`: the ticket counter, the keys of
the `pendingHooks` map, and (observable promise state) the outcomes of the
tickets that have settled. -/
structure HostState where
  ticketCounter : Nat := 0
  pending : List Nat := []
  settled : List (Nat × Outcome) := []

/-- The host's `worker.onmessage` handler: `LOG` messages only hit the
console; a message carrying a ticket that is in `pendingHooks` settles that
ticket's promise and deletes the entry; everything else is ignored. -/
def hostOnMessage (s : HostState) (m : WorkerMsg) : HostState :=
  match m with
  | .log _ => s
  | .loadSuccess => s
  | .loadError _ => s
  | .hookResult t r =>
    if t ∈ s.pending then
      { s with pending := s.pending.filter (fun u => u ≠ t),
               settled := s.settled ++ [(t, .resolved r)] }
    else s
  | .hookError t e =>
    if t ∈ s.pending then
      { s with pending := s.pending.filter (fun u => u ≠ t),
               settled := s.settled ++ [(t, .rejected e)] }
    else s

/-- A whole sandbox: host state, worker state, liveness of the worker, the
two in-flight message queues, and a ghost log `issued` of the tickets
handed out by `executeHook` (used only to state uniqueness). -/
structure SandboxSys where
  host : HostState := {}
  worker : WorkerState := ⟨[]⟩
  alive : Bool := true
  toWorker : List HostMsg := []
  toHost : List WorkerMsg := []
  issued : List Nat := []

/-- The freshly constructed sandbox (`new PluginSandbox()`). -/
def sysInit : SandboxSys := {}

/-- `executeHook(hookName, data)`: allocate the next ticket, store a
pending entry, post `EXECUTE_HOOK` to the worker (a post to a terminated
worker is discarded), and hand the ticket back. -/
def sysExec (sys : SandboxSys) (hookName : String) (data : JValue) : SandboxSys × Nat :=
  let t := sys.host.ticketCounter
  ({ sys with
      host := { sys.host with ticketCounter := t + 1, pending := sys.host.pending ++ [t] },
      toWorker := if sys.alive then sys.toWorker ++ [.executeHook hookName data t] else sys.toWorker,
      issued := sys.issued ++ [t] }, t)

/-- The worker consumes the next queued host message (only while alive). -/
def sysWorkerStep (sys : SandboxSys) : SandboxSys :=
  if sys.alive then
    match sys.toWorker with
    | [] => sys
    | m :: rest =>
      let (w2, outs) := workerOnMessage sys.worker m
      { sys with worker := w2, toWorker := rest, toHost := sys.toHost ++ outs }
  else sys

/-- The host receives the i-th queued worker message (responses may be
delivered in any order; after `terminate()` the port is closed and nothing
is delivered). -/
def sysDeliver (sys : SandboxSys) (i : Nat) : SandboxSys :=
  if sys.alive then
    match sys.toHost[i]? with
    | some m => { sys with host := hostOnMessage sys.host m, toHost := sys.toHost.eraseIdx i }
    | none => sys
  else sys

/-- `terminate()`: `this.worker.terminate()` and nothing else — the worker
dies, but the host state (ticket counter, pending map, settled promises)
is left untouched. -/
def sysTerminate (sys : SandboxSys) : SandboxSys :=
  { sys with alive := false }

/-- The events a sandbox system can undergo. -/
inductive SysEvent where
  | exec (hookName : String) (data : JValue)
  | workerStep
  | deliver (i : Nat)
  | term

/-- One step of the sandbox system. -/
def sysStep (sys : SandboxSys) : SysEvent → SandboxSys
  | .exec n d => (sysExec sys n d).1
  | .workerStep => sysWorkerStep sys
  | .deliver i => sysDeliver sys i
  | .term => sysTerminate sys

/-- Run a list of events. -/
def sysRun (sys : SandboxSys) (es : List SysEvent) : SandboxSys :=
  es.foldl sysStep sys

/-- Host-state sanity invariant: pending tickets and settled tickets are
below the counter, pending tickets are distinct, and a pending ticket has
not settled. -/
def hostWFb (s : HostState) : Bool :=
  s.pending.all (fun t => t < s.ticketCounter) &&
  (s.settled.all fun te => te.1 < s.ticketCounter) &&
  s.pending.Nodup &&
  (s.pending.all fun t => (alookup t s.settled).isNone)

/-! ## Hook orchestrator (src/components/MainLayout.tsx, triggerPluginHook) -/

/-- A persisted plugin record (src/types.ts, interface Plugin). -/
structure Plugin where
  id : String
  name : String
  description : String
  code : String
  enabled : Bool
  settings : Option JValue

/-- The result the orchestrator observes from `await sandbox.executeHook`:
the worker looks the hook up, runs it (success or throw), or passes the
payload through when nothing is registered.  This is the awaited
round-trip of `sysExec`/`sysWorkerStep`/`sysDeliver` collapsed to its
settled outcome, which is what the sequential `await` sees. -/
def hookOutcome (w : WorkerState) (hookName : String) (data : JValue) : Except String JValue :=
  match workerHookLookup w.userHooks hookName with
  | some hook => hook data
  | none => .ok data

/-- One iteration of the orchestrator's `for` loop: if the plugin has a
live sandbox, run the hook; on success the result replaces the working
payload, on failure the error is logged and the previous payload is kept;
a plugin with no live sandbox is skipped. -/
def chainStep (sandboxes : List (String × WorkerState)) (hookName : String)
    (acc : JValue) (p : Plugin) : JValue :=
  match alookup p.id sandboxes with
  | some w =>
    match hookOutcome w hookName acc with
    | .ok r => r
    | .error _ => acc
  | none => acc

/-- `imagePlugin?.settings || {}`: optional-chained settings with a falsy
default of the empty object. -/
def settingsOrEmpty (imagePlugin : Option Plugin) : JValue :=
  match imagePlugin with
  | some p =>
    match p.settings with
    | some s => if s.truthy then s else .obj []
    | none => .obj []
  | none => .obj []

/-- `triggerPluginHook(hookName, data)` from MainLayout.tsx (lines
329-349): enrich the payload with the image-generator plugin's settings
when the hook is `generateImage`, then fold the enabled plugins over the
working payload.  `plugins := none` models `appData.plugins` being
`undefined`. -/
def triggerPluginHook (plugins : Option (List Plugin))
    (sandboxes : List (String × WorkerState))
    (hookName : String) (data : JValue) : JValue :=
  let processedData :=
    if hookName = "generateImage" then
      let imagePlugin := (plugins.getD []).find? (fun p => p.id = "default-image-generator")
      jsSpreadSet data "settings" (settingsOrEmpty imagePlugin)
    else data
  let enabledPlugins := (plugins.getD []).filter (fun p => p.enabled)
  enabledPlugins.foldl (chainStep sandboxes hookName) processedData

/-- Modelled from the spec (section 4.3 Hook Orchestrator), for refinement
comparison with `triggerPluginHook`: for each enabled plugin in order, if a
live sandbox exists call `executeHook`, on success replace the working
payload, on failure keep it; the chain starts from the initial payload
with no enrichment. -/
def specTrigger (plugins : Option (List Plugin))
    (sandboxes : List (String × WorkerState))
    (hookName : String) (data : JValue) : JValue :=
  ((plugins.getD []).filter (fun p => p.enabled)).foldl
    (fun acc p =>
      match alookup p.id sandboxes with
      | some w =>
        match hookOutcome w hookName acc with
        | .ok r => r
        | .error _ => acc
      | none => acc) data

/-! ## Vault (src/services/secureStorage.ts) -/

/-- A PBKDF2-derived AES key, determined by the password and the salt
(`deriveKey` is deterministic; the slow KDF itself is outside the model). -/
structure DerivedKey where
  password : String
  salt : Nat
deriving DecidableEq, Repr

/-- A plaintext that can sit inside a ciphertext: the verifier constant
string `password_is_correct` (not valid JSON), a JSON document (the
serialized application state), or garbage that fails `JSON.parse`
(e.g. an XOR decryption under the wrong password). -/
inductive Plain where
  | verifierConst
  | json (v : JValue)
  | malformed (id : Nat)

/-- `decrypted === 'password_is_correct'`. -/
def Plain.isVerifierConst : Plain → Bool
  | .verifierConst => true
  | _ => false

/-- `JSON.parse` on a decrypted plaintext: succeeds exactly on JSON
documents. -/
def parsePlain : Plain → Option JValue
  | .json v => some v
  | .verifierConst => none
  | .malformed _ => none

/-- A persisted ciphertext: an AES-GCM blob (IV prepended, modelled as the
ideal triple key/iv/plaintext), a legacy XOR blob, or a tampered or
otherwise corrupted string. -/
inductive StoredBlob where
  | aesGcm (key : DerivedKey) (iv : Nat) (plain : Plain)
  | legacyXor (key : String) (plain : Plain)
  | corrupt (id : Nat)

/-- `encryptData(data, key)` with a fresh IV. -/
def encryptData (plain : Plain) (key : DerivedKey) (iv : Nat) : StoredBlob :=
  .aesGcm key iv plain

/-- `decryptData(blob, key)`: AES-GCM authenticated decryption; any
mismatch of key, or a non-AES blob, throws — modelled as `none`. -/
def decryptData (blob : StoredBlob) (key : DerivedKey) : Option Plain :=
  match blob with
  | .aesGcm k _ p => if k = key then some p else none
  | .legacyXor _ _ => none
  | .corrupt _ => none

/-- `legacyDecrypt(blob, masterKey)`: throws when the key is empty
(falsy); XOR decryption never authenticates, so a wrong key or a non-XOR
blob yields garbage rather than an error. -/
def legacyDecrypt (blob : StoredBlob) (masterKey : String) : Option Plain :=
  if masterKey = "" then none
  else
    match blob with
    | .legacyXor k p => some (if k = masterKey then p else .malformed 0)
    | .aesGcm _ _ _ => some (.malformed 1)
    | .corrupt _ => some (.malformed 2)

/-- Persistent storage: the three vault keys, each present in
localStorage (legacy location) and/or IndexedDB. -/
structure Store where
  lsSalt : Option Nat := none
  lsVerifier : Option StoredBlob := none
  lsData : Option StoredBlob := none
  dbSalt : Option Nat := none
  dbVerifier : Option StoredBlob := none
  dbData : Option StoredBlob := none

/-- The empty store. -/
def Store.empty : Store := {}

/-- Module-level session state of secureStorage.ts. -/
structure Session where
  masterCryptoKey : Option DerivedKey := none
  masterPasswordForMigration : Option String := none

/-- The fresh session (page load: both module variables are null). -/
def Session.empty : Session := {}

/-- `migrateKey(STORAGE_KEY_PASS_VERIFIER)`: copy the localStorage value
into IndexedDB (overwriting) and remove it from localStorage. -/
def migrateVerifierKey (st : Store) : Store :=
  match st.lsVerifier with
  | some v => { st with dbVerifier := some v, lsVerifier := none }
  | none => st

/-- `migrateKey(STORAGE_KEY_SALT)`. -/
def migrateSaltKey (st : Store) : Store :=
  match st.lsSalt with
  | some s => { st with dbSalt := some s, lsSalt := none }
  | none => st

/-- `setMasterPassword(password)`: remember the password for migration,
generate a fresh salt, derive and keep the key, encrypt the verifier
constant, persist salt and verifier, and clear the legacy localStorage
slots.  The fresh salt and IV are passed in as parameters. -/
def setMasterPassword (password : String) (salt : Nat) (iv : Nat)
    (st : Store) (_sess : Session) : Store × Session :=
  let key : DerivedKey := ⟨password, salt⟩
  let verifier := encryptData .verifierConst key iv
  ({ st with dbSalt := some salt, dbVerifier := some verifier,
             lsVerifier := none, lsSalt := none },
   { masterCryptoKey := some key, masterPasswordForMigration := some password })

/-- `verifyMasterPassword(password)`.  Returns the boolean outcome, the
updated store and session, and a ghost flag recording whether the legacy
XOR branch ran (used only to state claims about that branch).  Faithful
ordering: the password is remembered first, the two legacy keys are
migrated, and on the modern path `masterCryptoKey` is assigned before
decryption is attempted (so a failed verify still leaves the wrongly
derived key in the session). -/
def verifyMasterPassword (password : String) (st : Store) (sess : Session) :
    Bool × Store × Session × Bool :=
  let sess1 : Session := { sess with masterPasswordForMigration := some password }
  let st1 := migrateSaltKey (migrateVerifierKey st)
  match st1.dbVerifier with
  | none => (false, st1, sess1, false)
  | some verifier =>
    match st1.dbSalt with
    | some salt =>
      -- Modern path (AES-GCM)
      let key : DerivedKey := ⟨password, salt⟩
      let sess2 : Session := { sess1 with masterCryptoKey := some key }
      match decryptData verifier key with
      | some decrypted => (decrypted.isVerifierConst, st1, sess2, false)
      | none => (false, st1, sess2, false)
    | none =>
      -- Legacy path (XOR) for migration; masterCryptoKey stays null.
      match legacyDecrypt verifier password with
      | some decrypted => (decrypted.isVerifierConst, st1, sess1, true)
      | none => (false, st1, sess1, true)

/-- `saveData(data)` on an already-serialized JSON document: throws when no
master key is held, otherwise encrypts with a fresh IV and persists. -/
def saveDataJson (dataJson : JValue) (iv : Nat) (st : Store) (sess : Session) :
    Except String Store :=
  match sess.masterCryptoKey with
  | none => .error "Cannot save data: master key not available."
  | some key => .ok { st with dbData := some (encryptData (.json dataJson) key iv) }

/-- The validated application state as `loadData` returns it
(src/types.ts, interface AppData, with each record kept at the JSON level
because the sanitizer works on raw parsed JSON). -/
structure AppData where
  characters : List JValue
  chatSessions : List JValue
  plugins : List JValue
  userKeys : Option JValue

/-- The safe empty default state. -/
def emptyAppData : AppData := ⟨[], [], [], none⟩

/-- `JSON.stringify` of an AppData value (the shape `saveData` persists):
an `undefined` field is omitted from the output object. -/
def appDataToJson (d : AppData) : JValue :=
  .obj ([("characters", .arr d.characters),
         ("chatSessions", .arr d.chatSessions),
         ("plugins", .arr d.plugins)] ++
        (match d.userKeys with
         | some v => [("userKeys", v)]
         | none => []))

/-- JavaScript string coercion used by `'Chat with ' + character.name`
(composite values are approximated; only strings occur in practice). -/
def jsToString : Option JValue → String
  | some (.str s) => s
  | some (.num n) => toString n
  | some (.bool true) => "true"
  | some (.bool false) => "false"
  | some .null => "null"
  | some (.arr _) => ""
  | some (.obj _) => "[object Object]"
  | none => "undefined"

/-- The per-session migration step inside `loadData`'s
`validatedData.chatSessions.map(...)`: a session still in the old
single-character format (`characterId` truthy, `characterIds` falsy) is
rebuilt; otherwise a non-array `messages` is replaced by `[]` and the
session is returned as-is.  (A rebuilt session's absent `id` is modelled
as `null`; sessions reaching this map are objects.) -/
def migrateSession (characters : List JValue) (session : JValue) : JValue :=
  let characterId := session.field "characterId"
  let characterIds := session.field "characterIds"
  if jsTruthy characterId && !(jsTruthy characterIds) then
    let cid := characterId.getD .null
    let character := characters.find? (fun c =>
      match c.field "id" with
      | some idv => JValue.beq idv cid
      | none => false)
    let name :=
      match character with
      | some c => "Chat with " ++ jsToString (c.field "name")
      | none => "Untitled Chat"
    let messages :=
      match session.field "messages" with
      | some (.arr ms) => JValue.arr ms
      | _ => JValue.arr []
    .obj [("id", (session.field "id").getD .null),
          ("characterIds", .arr [cid]),
          ("name", .str name),
          ("messages", messages)]
  else
    match session.field "messages" with
    | some (.arr _) => session
    | _ =>
      match session with
      | .obj fields => .obj (aset "messages" (.arr []) fields)
      | v => v

/-- The data validation and sanitization at the tail of `loadData`:
reject non-objects, keep only object-like entries of the three arrays, and
migrate old-format chat sessions. -/
def sanitizeRawData (rawData : JValue) : AppData :=
  if !rawData.isObjectLike then emptyAppData
  else
    let characters :=
      ((match rawData.field "characters" with
       | some (.arr xs) => xs
       | _ => []) : List JValue).filter (fun c => c.truthy && c.isObjectLike)
    let chatSessions :=
      ((match rawData.field "chatSessions" with
       | some (.arr xs) => xs
       | _ => []) : List JValue).filter (fun s => s.truthy && s.isObjectLike)
    let plugins :=
      ((match rawData.field "plugins" with
       | some (.arr xs) => xs
       | _ => []) : List JValue).filter (fun p => p.truthy && p.isObjectLike)
    { characters := characters,
      chatSessions := chatSessions.map (migrateSession characters),
      plugins := plugins,
      userKeys := rawData.field "userKeys" }

/-- `loadData()`.  Outputs the state handed to the application, the
updated store and session, and a ghost flag recording whether the legacy
decryption-and-migration branch ran (used only to state claims about that
branch).  The fresh salt and the two fresh IVs the migration would draw
are passed in as parameters. -/
def loadData (newSalt ivVerifier ivData : Nat) (st : Store) (sess : Session) :
    AppData × Store × Session × Bool :=
  -- localStorage-to-IndexedDB relocation of the main blob
  let relocated : Option StoredBlob × Store :=
    match st.dbData, st.lsData with
    | some d, _ => (some d, st)
    | none, some l => (some l, { st with dbData := some l, lsData := none })
    | none, none => (none, st)
  let encryptedData := relocated.1
  let st1 := relocated.2
  match encryptedData with
  | none => (emptyAppData, st1, sess, false)
  | some blob =>
    match sess.masterCryptoKey with
    | some key =>
      -- Modern decryption path
      match decryptData blob key with
      | none => (emptyAppData, st1, sess, false)
      | some p =>
        match parsePlain p with
        | none => (emptyAppData, st1, sess, false)
        | some rawData => (sanitizeRawData rawData, st1, sess, false)
    | none =>
      -- Legacy decryption and migration path
      match sess.masterPasswordForMigration with
      | none => (emptyAppData, st1, sess, true)
      | some pw =>
        match legacyDecrypt blob pw with
        | none => (emptyAppData, st1, sess, true)
        | some p =>
          match parsePlain p with
          | none => (emptyAppData, st1, sess, true)
          | some rawData =>
            -- Security upgrade: only reached after legacy decryption and
            -- JSON.parse succeeded; commits salt, verifier and the
            -- re-encrypted blob, in that order.
            let newKey : DerivedKey := ⟨pw, newSalt⟩
            let sess1 : Session := { sess with masterCryptoKey := some newKey }
            let newVerifier := encryptData .verifierConst newKey ivVerifier
            let st2 := { st1 with dbSalt := some newSalt, dbVerifier := some newVerifier }
            let st3 := { st2 with dbData := some (encryptData (.json rawData) newKey ivData) }
            (sanitizeRawData rawData, st3, sess1, true)

/-- Well-formedness of a state for the round-trip claim: every character
and plugin is a (truthy) object kept by the sanitizer, and every chat
session is an object in the current format — truthy `characterIds`, or no
truthy `characterId`, and an array `messages` — so the migration map is
the identity on it. -/
def appDataWFb (d : AppData) : Bool :=
  d.characters.all (fun c => c.truthy && c.isObjectLike) &&
  d.plugins.all (fun p => p.truthy && p.isObjectLike) &&
  d.chatSessions.all (fun (s : JValue) =>
    (match s with | .obj _ => true | _ => false) &&
    !(jsTruthy (s.field "characterId") && !(jsTruthy (s.field "characterIds"))) &&
    (match s.field "messages" with | some (.arr _) => true | _ => false))

/-- The single response message the worker posts for one `EXECUTE_HOOK`
request, as a function of the callback's outcome. -/
def hookResponseMsg (t : Nat) : Except String JValue → WorkerMsg
  | .ok r => .hookResult t r
  | .error e => .hookError t e

/-! ## Helper lemmas -/

theorem isObjectLike_obj (fs : List (String × JValue)) :
    (JValue.obj fs).isObjectLike = true := rfl

theorem alookup_cons {α β : Type} [DecidableEq α] (k k2 : α) (v : β) (rest : List (α × β)) :
    alookup k ((k2, v) :: rest) = if k = k2 then some v else alookup k rest := rfl

theorem alookup_aset_self {α β : Type} [DecidableEq α] (k : α) (v : β) (l : List (α × β)) :
    alookup k (aset k v l) = some v := by
  induction l with
  | nil => simp [aset, alookup]
  | cons hd tl ih =>
    obtain ⟨k2, v2⟩ := hd
    by_cases h : k = k2
    · simp [aset, alookup, h]
    · simp [aset, alookup, h, ih]

theorem alookup_append {α β : Type} [DecidableEq α] (k : α) (xs ys : List (α × β)) :
    alookup k (xs ++ ys) =
      match alookup k xs with
      | some v => some v
      | none => alookup k ys := by
  induction xs with
  | nil => simp [alookup]
  | cons hd tl ih =>
    obtain ⟨k2, v2⟩ := hd
    by_cases h : k = k2
    · simp [alookup, h]
    · simp [alookup, h, ih]

theorem alookup_eq_none {α β : Type} [DecidableEq α] (k : α) (l : List (α × β))
    (h : ∀ p ∈ l, p.1 ≠ k) : alookup k l = none := by
  induction l with
  | nil => rfl
  | cons hd tl ih =>
    obtain ⟨k2, v2⟩ := hd
    have hk : k ≠ k2 := fun he => (h (k2, v2) (by simp)) he.symm
    simp [alookup, hk]
    exact ih fun p hp => h p (by simp [hp])

theorem list_map_id_of_mem {α : Type} (f : α → α) (l : List α)
    (h : ∀ x ∈ l, f x = x) : l.map f = l := by
  induction l with
  | nil => rfl
  | cons hd tl ih =>
    simp only [List.map_cons, h hd (by simp)]
    rw [ih fun x hx => h x (by simp [hx])]

theorem list_filter_eq_self_of_mem {α : Type} (p : α → Bool) (l : List α)
    (h : ∀ x ∈ l, p x = true) : l.filter p = l := by
  induction l with
  | nil => rfl
  | cons hd tl ih =>
    rw [List.filter_cons_of_pos (h hd (by simp))]
    rw [ih fun x hx => h x (by simp [hx])]

/-- A well-formed (current-format) chat session passes through
`migrateSession` unchanged. -/
theorem migrateSession_id (characters : List JValue) (s : JValue)
    (hfmt : (jsTruthy (s.field "characterId") && !(jsTruthy (s.field "characterIds"))) = false)
    (hmsg : (match s.field "messages" with | some (.arr _) => true | _ => false) = true) :
    migrateSession characters s = s := by
  unfold migrateSession
  simp only [hfmt, Bool.false_eq_true, if_false]
  match hm : s.field "messages" with
  | some (.arr ms) => simp
  | some .null | some (.bool _) | some (.num _) | some (.str _) | some (.obj _) | none =>
    rw [hm] at hmsg; simp at hmsg

/-- The sanitizer is the identity on the JSON image of a well-formed
state. -/
theorem sanitizeRawData_appDataToJson (d : AppData) (h : appDataWFb d = true) :
    sanitizeRawData (appDataToJson d) = d := by
  obtain ⟨dc, ds, dp, du⟩ := d
  unfold appDataWFb at h
  rw [Bool.and_eq_true, Bool.and_eq_true] at h
  obtain ⟨⟨hc, hp⟩, hs⟩ := h
  rw [List.all_eq_true] at hc hp hs
  have hcf : dc.filter (fun c => c.truthy && c.isObjectLike) = dc :=
    list_filter_eq_self_of_mem _ _ hc
  have hpf : dp.filter (fun p => p.truthy && p.isObjectLike) = dp :=
    list_filter_eq_self_of_mem _ _ hp
  have hsf : ds.filter (fun s => s.truthy && s.isObjectLike) = ds := by
    apply list_filter_eq_self_of_mem
    intro s hsmem
    have h2 := hs s hsmem
    rw [Bool.and_eq_true, Bool.and_eq_true] at h2
    obtain ⟨⟨hobj, _⟩, _⟩ := h2
    cases s <;> simp_all [JValue.truthy, JValue.isObjectLike]
  have hsm : ds.map (migrateSession dc) = ds := by
    apply list_map_id_of_mem
    intro s hsmem
    have h2 := hs s hsmem
    rw [Bool.and_eq_true, Bool.and_eq_true] at h2
    obtain ⟨⟨_, hfmt⟩, hmsg⟩ := h2
    rw [Bool.not_eq_true'] at hfmt
    exact migrateSession_id dc s hfmt hmsg
  cases du with
  | none =>
    simp [appDataToJson, sanitizeRawData, JValue.field, isObjectLike_obj,
      alookup, hcf, hpf, hsf, hsm]
  | some uv =>
    simp [appDataToJson, sanitizeRawData, JValue.field, isObjectLike_obj,
      alookup, hcf, hpf, hsf, hsm]

/-- Unpacked form of the host invariant. -/
theorem hostWFb_spec (s : HostState) (h : hostWFb s = true) :
    (∀ t ∈ s.pending, t < s.ticketCounter) ∧
    (∀ te ∈ s.settled, te.1 < s.ticketCounter) ∧
    s.pending.Nodup ∧
    (∀ t ∈ s.pending, alookup t s.settled = none) := by
  unfold hostWFb at h
  rw [Bool.and_eq_true, Bool.and_eq_true, Bool.and_eq_true] at h
  obtain ⟨⟨⟨h1, h2⟩, h3⟩, h4⟩ := h
  rw [List.all_eq_true] at h1 h2 h4
  refine ⟨fun t ht => by simpa using h1 t ht,
          fun te hte => by simpa using h2 te hte,
          by simpa using h3,
          fun t ht => ?_⟩
  have := h4 t ht
  rwa [Option.isNone_iff_eq_none] at this

theorem alookup_none_of_ge (c : Nat) (l : List (Nat × Outcome))
    (h : ∀ te ∈ l, te.1 < c) : alookup c l = none :=
  alookup_eq_none c l fun p hp => Nat.ne_of_lt (h p hp)

theorem hostOnMessage_ticketCounter (s : HostState) (m : WorkerMsg) :
    (hostOnMessage s m).ticketCounter = s.ticketCounter := by
  cases m <;> simp only [hostOnMessage] <;> split <;> rfl

theorem hostOnMessage_hookResult_mem (s : HostState) (t : Nat) (r : JValue)
    (h : t ∈ s.pending) :
    hostOnMessage s (.hookResult t r) =
      { s with pending := s.pending.filter (fun u => u ≠ t),
               settled := s.settled ++ [(t, .resolved r)] } := by
  simp [hostOnMessage, h]

theorem hostOnMessage_hookError_mem (s : HostState) (t : Nat) (e : String)
    (h : t ∈ s.pending) :
    hostOnMessage s (.hookError t e) =
      { s with pending := s.pending.filter (fun u => u ≠ t),
               settled := s.settled ++ [(t, .rejected e)] } := by
  simp [hostOnMessage, h]

theorem hostOnMessage_hookResult_not_mem (s : HostState) (t : Nat) (r : JValue)
    (h : t ∉ s.pending) : hostOnMessage s (.hookResult t r) = s := by
  simp [hostOnMessage, h]

theorem hostOnMessage_hookError_not_mem (s : HostState) (t : Nat) (e : String)
    (h : t ∉ s.pending) : hostOnMessage s (.hookError t e) = s := by
  simp [hostOnMessage, h]

/-- The issued-tickets ghost log always equals `range ticketCounter`. -/
theorem sysRun_issued_range (es : List SysEvent) (sys : SandboxSys)
    (h : sys.issued = List.range sys.host.ticketCounter) :
    (sysRun sys es).issued = List.range (sysRun sys es).host.ticketCounter := by
  induction es generalizing sys with
  | nil => exact h
  | cons e rest ih =>
    show (sysRun (sysStep sys e) rest).issued = _
    apply ih
    cases e with
    | exec n d => simp [sysStep, sysExec, h, List.range_succ]
    | workerStep =>
      unfold sysStep sysWorkerStep
      cases sys.alive <;> simp [h]
      cases sys.toWorker <;> simp [h]
    | deliver i =>
      unfold sysStep sysDeliver
      cases sys.alive <;> simp only [h, Bool.false_eq_true, if_false, if_true]
      cases hm : sys.toHost[i]? <;> simp [h, hm, hostOnMessage_ticketCounter]
    | term => simp [sysStep, sysTerminate, h]

/-! ## Claim theorems: plugin sandbox -/

/-- C9: inside one isolated context, registering a callback under a hook
name that already has a registration overwrites it: after loading plugin
code that registers `f` and then `g` under the same name, the table maps
the name to `g`, and a subsequent `EXECUTE_HOOK` for that name runs only
`g`. -/
theorem last_registration_wins (w : WorkerState) (name : String) (f g : Hook) :
    let w1 := (workerOnMessage w (.loadCode ⟨[.register name (some f), .register name (some g)], none⟩)).1
    alookup name w1.userHooks = some g ∧
    ∀ data t, workerOnMessage w1 (.executeHook name data t) = (w1, [hookResponseMsg t (g data)]) := by
  refine ⟨?_, ?_⟩
  · simp [workerOnMessage, registerHook, alookup_aset_self]
  · intro data t
    simp only [workerOnMessage, List.foldl, registerHook, actionMsgs,
      workerHookLookup, alookup_aset_self]
    cases hgd : g data <;> simp [hookResponseMsg, hgd]

/-- C10: each promise settles at most once.  A `LOG` message changes
nothing; a response whose ticket has no pending entry (already settled,
or never issued) changes nothing; and whichever response arrives first
for a pending ticket — `HOOK_RESULT` or `HOOK_ERROR` — deletes the
entry, so any duplicate response (result or error) for the same ticket
leaves the state, including the already-settled promise, unchanged. -/
theorem hook_response_at_most_once (s : HostState) (t : Nat)
    (r r2 : JValue) (e e2 : String) (xs : List JValue) :
    hostOnMessage s (.log xs) = s ∧
    (t ∉ s.pending →
      hostOnMessage s (.hookResult t r) = s ∧ hostOnMessage s (.hookError t e) = s) ∧
    (t ∈ s.pending →
      t ∉ (hostOnMessage s (.hookResult t r)).pending ∧
      hostOnMessage (hostOnMessage s (.hookResult t r)) (.hookResult t r2) =
        hostOnMessage s (.hookResult t r) ∧
      hostOnMessage (hostOnMessage s (.hookResult t r)) (.hookError t e2) =
        hostOnMessage s (.hookResult t r)) ∧
    (t ∈ s.pending →
      t ∉ (hostOnMessage s (.hookError t e)).pending ∧
      hostOnMessage (hostOnMessage s (.hookError t e)) (.hookResult t r2) =
        hostOnMessage s (.hookError t e) ∧
      hostOnMessage (hostOnMessage s (.hookError t e)) (.hookError t e2) =
        hostOnMessage s (.hookError t e)) := by
  refine ⟨rfl, fun hnot => ⟨hostOnMessage_hookResult_not_mem s t r hnot,
                            hostOnMessage_hookError_not_mem s t e hnot⟩,
          fun hmem => ?_, fun hmem => ?_⟩
  · have hnp : t ∉ (hostOnMessage s (.hookResult t r)).pending := by
      rw [hostOnMessage_hookResult_mem s t r hmem]
      simp [List.mem_filter]
    exact ⟨hnp, hostOnMessage_hookResult_not_mem _ t r2 hnp,
           hostOnMessage_hookError_not_mem _ t e2 hnp⟩
  · have hnp : t ∉ (hostOnMessage s (.hookError t e)).pending := by
      rw [hostOnMessage_hookError_mem s t e hmem]
      simp [List.mem_filter]
    exact ⟨hnp, hostOnMessage_hookResult_not_mem _ t r2 hnp,
           hostOnMessage_hookError_not_mem _ t e2 hnp⟩

/-- C7: every ticket issued over a sandbox's lifetime is unique (the
ghost issuance log of any run from the initial sandbox has no
duplicates), and responses are routed strictly by ticket: delivering the
responses for two distinct pending tickets in the order 2-then-1 settles
each promise with its own result. -/
theorem ticket_uniqueness_and_routing (es : List SysEvent) (s : HostState)
    (t1 t2 : Nat) (r1 r2 : JValue)
    (hwf : hostWFb s = true) (h1 : t1 ∈ s.pending) (h2 : t2 ∈ s.pending)
    (hne : t1 ≠ t2) :
    (sysRun sysInit es).issued.Nodup ∧
    (let s2 := hostOnMessage (hostOnMessage s (.hookResult t2 r2)) (.hookResult t1 r1)
     alookup t1 s2.settled = some (.resolved r1) ∧
     alookup t2 s2.settled = some (.resolved r2)) := by
  obtain ⟨_, _, _, hnone⟩ := hostWFb_spec s hwf
  refine ⟨?_, ?_⟩
  · rw [sysRun_issued_range es sysInit rfl]
    exact List.nodup_range _
  · have h1' : t1 ∈ (hostOnMessage s (.hookResult t2 r2)).pending := by
      rw [hostOnMessage_hookResult_mem s t2 r2 h2]
      simp [List.mem_filter, h1, hne]
    rw [hostOnMessage_hookResult_mem _ t1 r1 h1', hostOnMessage_hookResult_mem s t2 r2 h2]
    refine ⟨?_, ?_⟩
    · simp only [List.append_assoc, List.singleton_append]
      rw [alookup_append]
      simp [hnone t1 h1, alookup, hne]
    · simp only [List.append_assoc, List.singleton_append]
      rw [alookup_append]
      simp [hnone t2 h2, alookup]

/-- C8: a registered callback that throws rejects only its own ticket:
the worker answers the `EXECUTE_HOOK` with a single `HOOK_ERROR` for that
ticket and its state (the isolated context) is unchanged; on the host,
that ticket's promise is rejected with the thrown error while every other
pending ticket stays pending, unsettled, and can still resolve with its
own result. -/
theorem hook_error_isolation (w : WorkerState) (hookName : String) (data : JValue)
    (hk : Hook) (e : String) (t t2 : Nat) (r2 : JValue) (s : HostState)
    (hlook : alookup hookName w.userHooks = some hk) (hthrow : hk data = .error e)
    (hwf : hostWFb s = true) (ht : t ∈ s.pending) (ht2 : t2 ∈ s.pending)
    (hne : t2 ≠ t) :
    workerOnMessage w (.executeHook hookName data t) = (w, [.hookError t e]) ∧
    (let s1 := hostOnMessage s (.hookError t e)
     alookup t s1.settled = some (.rejected e) ∧
     t2 ∈ s1.pending ∧
     alookup t2 s1.settled = none ∧
     alookup t2 (hostOnMessage s1 (.hookResult t2 r2)).settled = some (.resolved r2)) := by
  obtain ⟨_, _, _, hnone⟩ := hostWFb_spec s hwf
  refine ⟨by simp [workerOnMessage, workerHookLookup, hlook, hthrow], ?_, ?_, ?_, ?_⟩
  · rw [hostOnMessage_hookError_mem s t e ht, alookup_append]
    simp [hnone t ht, alookup]
  · rw [hostOnMessage_hookError_mem s t e ht]
    simp [List.mem_filter, ht2, hne]
  · rw [hostOnMessage_hookError_mem s t e ht, alookup_append]
    simp [hnone t2 ht2, alookup, hne]
  · have ht2' : t2 ∈ (hostOnMessage s (.hookError t e)).pending := by
      rw [hostOnMessage_hookError_mem s t e ht]
      simp [List.mem_filter, ht2, hne]
    rw [hostOnMessage_hookResult_mem _ t2 r2 ht2', hostOnMessage_hookError_mem s t e ht]
    simp only [List.append_assoc]
    rw [alookup_append, alookup_append]
    simp [hnone t2 ht2, alookup, hne]

/-- C3 (code bug): the claimed no-handler pass-through fails at the hook
name `toString` with zero registered handlers.  The `userHooks[hookName]`
read finds the inherited, truthy `Object.prototype.toString`, so the
worker calls it and a full `executeHook` round-trip from a fresh sandbox
settles the ticket with the builtin's string — not with the original
payload, which it differs from. -/
theorem executeHook_toString_divergence :
    alookup (sysExec sysInit "toString" (.obj [("content", .str "hi")])).2
        (sysDeliver (sysWorkerStep
          (sysExec sysInit "toString" (.obj [("content", .str "hi")])).1) 0).host.settled =
      some (.resolved (.str "[object DedicatedWorkerGlobalScope]")) ∧
    JValue.str "[object DedicatedWorkerGlobalScope]" ≠
      JValue.obj [("content", .str "hi")] :=
  ⟨rfl, fun h => JValue.noConfusion h⟩

/-- After the worker is dead, no step revives it, no promise ever
settles, and every pending ticket stays pending. -/
theorem sysStep_dead (sys : SandboxSys) (e : SysEvent) (h : sys.alive = false) :
    (sysStep sys e).alive = false ∧
    (sysStep sys e).host.settled = sys.host.settled ∧
    (∀ t ∈ sys.host.pending, t ∈ (sysStep sys e).host.pending) := by
  cases e with
  | exec n d =>
    refine ⟨h, rfl, fun t ht => ?_⟩
    simp [sysStep, sysExec, ht]
  | workerStep => simp [sysStep, sysWorkerStep, h]
  | deliver i => simp [sysStep, sysDeliver, h]
  | term => exact ⟨rfl, rfl, fun t ht => ht⟩

/-- Run form of `sysStep_dead`. -/
theorem sysRun_dead (es : List SysEvent) (sys : SandboxSys) (h : sys.alive = false) :
    (sysRun sys es).alive = false ∧
    (sysRun sys es).host.settled = sys.host.settled ∧
    (∀ t ∈ sys.host.pending, t ∈ (sysRun sys es).host.pending) := by
  induction es generalizing sys with
  | nil => exact ⟨h, rfl, fun t ht => ht⟩
  | cons e rest ih =>
    obtain ⟨ha, hs, hp⟩ := sysStep_dead sys e h
    obtain ⟨ha2, hs2, hp2⟩ := ih (sysStep sys e) ha
    exact ⟨ha2, hs2.trans hs, fun t ht => hp2 t (hp t ht)⟩

/-! ## Claim theorems: sandbox termination (C1) -/

/-- C1 counterexample: with one ticket outstanding, `terminate()` leaves
the pending entry in place and settles (in particular rejects) nothing —
the claimed synchronous rejection with a "sandbox terminated" error does
not happen. -/
theorem terminate_does_not_reject_cex :
    let sys1 := (sysExec sysInit "beforeMessageSend" (.obj [("content", .str "hi")])).1
    let sys2 := sysTerminate sys1
    sys2.host.pending = [0] ∧ sys2.host.settled = [] :=
  ⟨rfl, rfl⟩

/-- C1 amended: `terminate()` only kills the worker.  It is idempotent,
it leaves the host state (including every pending ticket) untouched and
rejects nothing; afterwards no promise ever settles, every pending ticket
stays pending forever, and an `executeHook` issued after termination
returns a ticket that stays pending and unsettled through any subsequent
events, rather than rejecting immediately. -/
theorem terminate_semantics (sys : SandboxSys) (es : List SysEvent)
    (hookName : String) (data : JValue) (hwf : hostWFb sys.host = true) :
    sysTerminate (sysTerminate sys) = sysTerminate sys ∧
    (sysTerminate sys).host = sys.host ∧
    (sysRun (sysTerminate sys) es).host.settled = sys.host.settled ∧
    (∀ t ∈ sys.host.pending, t ∈ (sysRun (sysTerminate sys) es).host.pending) ∧
    (let ex := sysExec (sysTerminate sys) hookName data
     ex.2 ∈ (sysRun ex.1 es).host.pending ∧
     alookup ex.2 (sysRun ex.1 es).host.settled = none) := by
  obtain ⟨_, hset, _, _⟩ := hostWFb_spec sys.host hwf
  obtain ⟨_, hrs, hrp⟩ := sysRun_dead es (sysTerminate sys) rfl
  have hdead : ((sysExec (sysTerminate sys) hookName data).1).alive = false := rfl
  obtain ⟨_, hrs2, hrp2⟩ := sysRun_dead es _ hdead
  refine ⟨rfl, rfl, hrs, fun t ht => hrp t ht, ?_, ?_⟩
  · apply hrp2
    simp [sysExec]
  · rw [hrs2]
    exact alookup_none_of_ge _ _ hset

theorem foldl_chainStep_id (sandboxes : List (String × WorkerState))
    (hookName : String) (l : List Plugin) (acc : JValue)
    (h : ∀ p ∈ l, ∀ x, chainStep sandboxes hookName x p = x) :
    l.foldl (chainStep sandboxes hookName) acc = acc := by
  induction l generalizing acc with
  | nil => rfl
  | cons hd tl ih =>
    rw [List.foldl_cons, h hd (by simp) acc]
    exact ih acc fun p hp => h p (by simp [hp])

/-! ## Claim theorems: hook orchestrator (C2) -/

/-- C2 counterexample: for the hook name `generateImage` with no plugins
at all, the orchestrator does NOT return the initial payload unchanged —
the host-side enrichment step merges a `settings` field into it first. -/
theorem trigger_generateImage_enriches_cex :
    triggerPluginHook (some []) [] "generateImage" (.obj [("content", .str "hi")]) ≠
      .obj [("content", .str "hi")] := by
  intro h
  have h2 : JValue.obj [("content", .str "hi"), ("settings", .obj [])] =
      JValue.obj [("content", .str "hi")] := h
  simp at h2

/-- C2 amended: for every hook name other than `generateImage` (whose
payload is first enriched with the image-generator plugin's settings),
the orchestrator visits the enabled plugins in order exactly as the spec
words it (refinement `specTrigger`); if no enabled plugin has a live
sandbox the initial payload comes back unchanged; and an enabled plugin
whose chain step is transparent (e.g. its hook invocation fails on every
payload) can be dropped from the chain without changing the result. -/
theorem trigger_chain_semantics (plugins : Option (List Plugin))
    (sandboxes : List (String × WorkerState)) (hookName : String) (data : JValue)
    (hne : hookName ≠ "generateImage") :
    triggerPluginHook plugins sandboxes hookName data =
      specTrigger plugins sandboxes hookName data ∧
    ((∀ p ∈ plugins.getD [], p.enabled = true → alookup p.id sandboxes = none) →
      triggerPluginHook plugins sandboxes hookName data = data) ∧
    (∀ pre p post, plugins = some (pre ++ p :: post) →
      (∀ x, chainStep sandboxes hookName x p = x) →
      triggerPluginHook plugins sandboxes hookName data =
        triggerPluginHook (some (pre ++ post)) sandboxes hookName data) := by
  refine ⟨?_, ?_, ?_⟩
  · simp only [triggerPluginHook, specTrigger, hne, if_false]
    rfl
  · intro h
    simp only [triggerPluginHook, hne, if_false]
    apply foldl_chainStep_id
    intro p hp x
    rw [List.mem_filter] at hp
    simp [chainStep, h p hp.1 hp.2]
  · intro pre p post hpl hid
    subst hpl
    simp only [triggerPluginHook, hne, if_false, Option.getD_some]
    by_cases hen : p.enabled = true
    · rw [List.filter_append, List.filter_cons_of_pos hen, List.filter_append]
      rw [List.foldl_append, List.foldl_cons, hid]
      rw [← List.foldl_append]
    · rw [List.filter_append, List.filter_cons_of_neg (by simpa using hen), List.filter_append]

/-! ## Claim theorems: vault (C4, C5, C6) -/

/-- C4: vault round-trip.  `setMasterPassword(p)` then `saveData(state)`
then, in a fresh session over the same store, `verifyMasterPassword(p)`
returns true and `loadData()` returns the saved state structurally
unchanged, for every state of the persisted AppData shape. -/
theorem vault_round_trip (p : String) (salt iv1 iv2 newSalt ivV ivD : Nat)
    (d : AppData) (h : appDataWFb d = true) :
    let s1 := setMasterPassword p salt iv1 Store.empty Session.empty
    ∃ st2, saveDataJson (appDataToJson d) iv2 s1.1 s1.2 = .ok st2 ∧
      (let v := verifyMasterPassword p st2 Session.empty
       v.1 = true ∧ (loadData newSalt ivV ivD v.2.1 v.2.2.1).1 = d) := by
  refine ⟨_, rfl, ?_, ?_⟩
  · simp [setMasterPassword, saveDataJson, verifyMasterPassword, migrateVerifierKey,
      migrateSaltKey, Store.empty, Session.empty, encryptData, decryptData,
      Plain.isVerifierConst]
  · simp [setMasterPassword, saveDataJson, verifyMasterPassword, migrateVerifierKey,
      migrateSaltKey, Store.empty, Session.empty, encryptData, decryptData,
      loadData, parsePlain, sanitizeRawData_appDataToJson d h]

/-- C5: a password that does not match the stored verifier — wrong
password (verifier encrypted under a different derived key) or a tampered
verifier ciphertext — makes `verifyMasterPassword` return false (the
AEAD failure is caught, not thrown: the embedding is total); and a
persisted data blob whose decryption or JSON parse fails makes
`loadData` return the safe empty default state. -/
theorem vault_wrong_password_and_corrupt_load (p : String) (salt : Nat)
    (st st2 : Store) (sess sess2 : Session) (blob blob2 : StoredBlob)
    (key : DerivedKey) (newSalt ivV ivD : Nat) :
    (st.lsVerifier = none → st.lsSalt = none → st.dbSalt = some salt →
     st.dbVerifier = some blob →
     ((∃ i, blob = .corrupt i) ∨
      (∃ k iv, blob = .aesGcm k iv .verifierConst ∧ k ≠ ⟨p, salt⟩)) →
     (verifyMasterPassword p st sess).1 = false) ∧
    (st2.lsData = none → st2.dbData = some blob2 →
     sess2.masterCryptoKey = some key →
     (decryptData blob2 key = none ∨
      (∃ pl, decryptData blob2 key = some pl ∧ parsePlain pl = none)) →
     (loadData newSalt ivV ivD st2 sess2).1 = emptyAppData) := by
  constructor
  · intro hlv hls hsalt hver hbad
    simp only [verifyMasterPassword, migrateVerifierKey, migrateSaltKey, hlv, hls,
      hsalt, hver]
    rcases hbad with ⟨i, rfl⟩ | ⟨k, iv, rfl, hk⟩
    · simp [decryptData]
    · simp [decryptData, hk]
  · intro hld hdb hkey hfail
    simp only [loadData, hld, hdb, hkey]
    rcases hfail with hdec | ⟨pl, hdec, hparse⟩
    · simp [hdec]
    · simp [hdec, hparse]

/-- C6: the legacy migration runs at most once and commits atomically.
(i) With salt metadata present in storage, a verify-then-load session
never takes the legacy decryption branch (ghost flags false), derives the
modern key, and `loadData` leaves the store untouched — already-migrated
data is never re-migrated or double-re-encrypted.  (ii) On a
pre-migration store, a legacy decryption or parse failure leaves the
store exactly unchanged (nothing half-committed), while a fully
successful and validated legacy decryption commits the new-scheme salt,
verifier and re-encrypted blob together and installs the new session
key. -/
theorem legacy_migration_once_and_atomic (p pw : String) (s0 : Nat)
    (st stm : Store) (sess sessm : Session) (vb blob : StoredBlob)
    (newSalt ivV ivD : Nat) :
    (st.lsSalt = none → st.lsVerifier = none → st.lsData = none →
     st.dbSalt = some s0 → st.dbVerifier = some vb →
     (let v := verifyMasterPassword p st sess
      v.2.2.2 = false ∧
      v.2.2.1.masterCryptoKey = some ⟨p, s0⟩ ∧
      (let l := loadData newSalt ivV ivD v.2.1 v.2.2.1
       l.2.2.2 = false ∧ l.2.1 = v.2.1))) ∧
    (stm.lsData = none → stm.dbData = some blob →
     sessm.masterCryptoKey = none → sessm.masterPasswordForMigration = some pw →
     ((legacyDecrypt blob pw = none ∨
       (∃ pl, legacyDecrypt blob pw = some pl ∧ parsePlain pl = none)) →
      (loadData newSalt ivV ivD stm sessm).2.1 = stm ∧
      (loadData newSalt ivV ivD stm sessm).2.2.2 = true) ∧
     (∀ raw, legacyDecrypt blob pw = some (.json raw) →
      (loadData newSalt ivV ivD stm sessm).2.1 =
        { stm with dbSalt := some newSalt,
                   dbVerifier := some (.aesGcm ⟨pw, newSalt⟩ ivV .verifierConst),
                   dbData := some (.aesGcm ⟨pw, newSalt⟩ ivD (.json raw)) } ∧
      (loadData newSalt ivV ivD stm sessm).2.2.1.masterCryptoKey = some ⟨pw, newSalt⟩)) := by
  constructor
  · intro h1 h2 h3 h4 h5
    refine ⟨?_, ?_, ?_, ?_⟩
    · simp [verifyMasterPassword, migrateVerifierKey, migrateSaltKey, h1, h2, h4, h5]
      cases hdec : decryptData vb ⟨p, s0⟩ <;> simp
    · simp [verifyMasterPassword, migrateVerifierKey, migrateSaltKey, h1, h2, h4, h5]
      cases hdec : decryptData vb ⟨p, s0⟩ <;> simp
    · simp only [verifyMasterPassword, migrateVerifierKey, migrateSaltKey, h1, h2, h4, h5]
      cases hdec : decryptData vb ⟨p, s0⟩ <;>
        simp [loadData, h3] <;>
        cases hdd : st.dbData <;> simp [hdd] <;>
        cases hdec2 : decryptData _ ⟨p, s0⟩ <;> simp <;>
        cases hp : parsePlain _ <;> simp
    · simp only [verifyMasterPassword, migrateVerifierKey, migrateSaltKey, h1, h2, h4, h5]
      cases hdec : decryptData vb ⟨p, s0⟩ <;>
        simp [loadData, h3] <;>
        cases hdd : st.dbData <;> simp [hdd] <;>
        cases hdec2 : decryptData _ ⟨p, s0⟩ <;> simp <;>
        cases hp : parsePlain _ <;> simp
  · intro h1 h2 h3 h4
    constructor
    · intro hfail
      rcases hfail with hdec | ⟨pl, hdec, hparse⟩
      · simp [loadData, h1, h2, h3, h4, hdec]
      · simp [loadData, h1, h2, h3, h4, hdec, hparse]
    · intro raw hdec
      simp [loadData, h1, h2, h3, h4, hdec, parsePlain, encryptData]

/-! ## Witnesses -/

/-- Witness for C1: a sandbox with ticket 0 pending satisfies the
invariant; terminating is idempotent and ticket 0 is still pending after
a post-termination delivery attempt. -/
theorem terminate_semantics_witness :
    sysTerminate (sysTerminate (sysExec sysInit "h" JValue.null).1) =
      sysTerminate (sysExec sysInit "h" JValue.null).1 ∧
    0 ∈ (sysRun (sysTerminate (sysExec sysInit "h" JValue.null).1)
          [SysEvent.deliver 0]).host.pending := by
  have h := terminate_semantics (sysExec sysInit "h" JValue.null).1
    [SysEvent.deliver 0] "g" JValue.null rfl
  exact ⟨h.1, h.2.2.2.1 0 (by decide)⟩

/-- Witness for C2: with no plugins, a non-`generateImage` hook passes
the payload through unchanged. -/
theorem trigger_chain_semantics_witness :
    triggerPluginHook (some []) [] "beforeMessageSend" (JValue.str "x") =
      JValue.str "x" :=
  (trigger_chain_semantics (some []) [] "beforeMessageSend" (JValue.str "x")
    (by decide)).2.1 (fun p hp => absurd hp (by simp))

/-- Witness for C4: a concrete well-formed state round-trips. -/
theorem vault_round_trip_witness :
    (let s1 := setMasterPassword "pw" 7 1 Store.empty Session.empty
     ∃ st2, saveDataJson (appDataToJson
         ⟨[.obj [("id", .str "c1")]],
          [.obj [("characterIds", .arr [.str "c1"]), ("messages", .arr [])]],
          [.obj []], none⟩) 2 s1.1 s1.2 = .ok st2 ∧
       (let v := verifyMasterPassword "pw" st2 Session.empty
        v.1 = true ∧
        (loadData 9 3 4 v.2.1 v.2.2.1).1 =
          ⟨[.obj [("id", .str "c1")]],
           [.obj [("characterIds", .arr [.str "c1"]), ("messages", .arr [])]],
           [.obj []], none⟩)) :=
  vault_round_trip "pw" 7 1 2 9 3 4
    ⟨[.obj [("id", .str "c1")]],
     [.obj [("characterIds", .arr [.str "c1"]), ("messages", .arr [])]],
     [.obj []], none⟩ rfl

/-- Witness for C5: a wrong password is rejected with false, and loading
a corrupted blob yields the safe empty default. -/
theorem vault_wrong_password_and_corrupt_load_witness :
    (verifyMasterPassword "wrong"
        { dbSalt := some 5, dbVerifier := some (.aesGcm ⟨"right", 5⟩ 1 .verifierConst) }
        Session.empty).1 = false ∧
    (loadData 9 1 2 { dbData := some (.corrupt 0) }
        { masterCryptoKey := some ⟨"pw", 5⟩ }).1 = emptyAppData :=
  ⟨(vault_wrong_password_and_corrupt_load "wrong" 5
      { dbSalt := some 5, dbVerifier := some (.aesGcm ⟨"right", 5⟩ 1 .verifierConst) }
      { dbData := some (.corrupt 0) } Session.empty
      { masterCryptoKey := some ⟨"pw", 5⟩ }
      (.aesGcm ⟨"right", 5⟩ 1 .verifierConst) (.corrupt 0) ⟨"pw", 5⟩ 9 1 2).1
      rfl rfl rfl rfl (Or.inr ⟨⟨"right", 5⟩, 1, rfl, by decide⟩),
   (vault_wrong_password_and_corrupt_load "wrong" 5
      { dbSalt := some 5, dbVerifier := some (.aesGcm ⟨"right", 5⟩ 1 .verifierConst) }
      { dbData := some (.corrupt 0) } Session.empty
      { masterCryptoKey := some ⟨"pw", 5⟩ }
      (.aesGcm ⟨"right", 5⟩ 1 .verifierConst) (.corrupt 0) ⟨"pw", 5⟩ 9 1 2).2
      rfl rfl rfl (Or.inl rfl)⟩

/-- Witness for C6: with salt present the verify-then-load session keeps
the legacy flag off, and a successful legacy decryption commits the three
new-scheme artifacts together. -/
theorem legacy_migration_once_and_atomic_witness :
    (verifyMasterPassword "pw"
        { dbSalt := some 5, dbVerifier := some (.aesGcm ⟨"pw", 5⟩ 1 .verifierConst) }
        Session.empty).2.2.2 = false ∧
    (loadData 9 3 4 { dbData := some (.legacyXor "pw" (.json (.obj []))) }
        { masterPasswordForMigration := some "pw" }).2.1 =
      { dbSalt := some 9,
        dbVerifier := some (.aesGcm ⟨"pw", 9⟩ 3 .verifierConst),
        dbData := some (.aesGcm ⟨"pw", 9⟩ 4 (.json (.obj []))) } := by
  have h := legacy_migration_once_and_atomic "pw" "pw" 5
    { dbSalt := some 5, dbVerifier := some (.aesGcm ⟨"pw", 5⟩ 1 .verifierConst) }
    { dbData := some (.legacyXor "pw" (.json (.obj []))) }
    Session.empty { masterPasswordForMigration := some "pw" }
    (.aesGcm ⟨"pw", 5⟩ 1 .verifierConst) (.legacyXor "pw" (.json (.obj [])))
    9 3 4
  exact ⟨(h.1 rfl rfl rfl rfl rfl).1,
         ((h.2 rfl rfl rfl rfl).2 (.obj []) rfl).1⟩

/-- Witness for C7: a host with tickets 0 and 1 pending routes
out-of-order responses to their own tickets. -/
theorem ticket_uniqueness_and_routing_witness :
    (sysRun sysInit []).issued.Nodup ∧
    (let s2 := hostOnMessage
        (hostOnMessage ⟨2, [0, 1], []⟩ (.hookResult 1 (.str "b")))
        (.hookResult 0 (.str "a"))
     alookup 0 s2.settled = some (.resolved (.str "a")) ∧
     alookup 1 s2.settled = some (.resolved (.str "b"))) :=
  ticket_uniqueness_and_routing [] ⟨2, [0, 1], []⟩ 0 1 (.str "a") (.str "b")
    rfl (by decide) (by decide) (by decide)

/-- Witness for C8: a callback that always throws rejects only its own
ticket; the other pending ticket still resolves. -/
theorem hook_error_isolation_witness :
    workerOnMessage ⟨[("boom", fun _ => Except.error "kaboom")]⟩
        (.executeHook "boom" JValue.null 0) =
      (⟨[("boom", fun _ => Except.error "kaboom")]⟩, [.hookError 0 "kaboom"]) ∧
    (let s1 := hostOnMessage ⟨2, [0, 1], []⟩ (.hookError 0 "kaboom")
     alookup 0 s1.settled = some (.rejected "kaboom") ∧
     1 ∈ s1.pending ∧
     alookup 1 s1.settled = none ∧
     alookup 1 (hostOnMessage s1 (.hookResult 1 (.str "ok"))).settled =
       some (.resolved (.str "ok"))) :=
  hook_error_isolation ⟨[("boom", fun _ => Except.error "kaboom")]⟩ "boom"
    JValue.null (fun _ => Except.error "kaboom") "kaboom" 0 1 (.str "ok")
    ⟨2, [0, 1], []⟩ rfl rfl rfl (by decide) (by decide) (by decide)

/-- Witness for C10: on a host with ticket 0 pending, a response for an
unissued ticket is a no-op, a duplicate result after a first result is a
no-op, and a duplicate error after a first error is a no-op. -/
theorem hook_response_at_most_once_witness :
    (hostOnMessage ⟨1, [0], []⟩ (.hookResult 5 (.str "x")) = ⟨1, [0], []⟩) ∧
    (hostOnMessage (hostOnMessage ⟨1, [0], []⟩ (.hookResult 0 (.str "a")))
        (.hookResult 0 (.str "b")) =
      hostOnMessage ⟨1, [0], []⟩ (.hookResult 0 (.str "a"))) ∧
    (hostOnMessage (hostOnMessage ⟨1, [0], []⟩ (.hookError 0 "e1"))
        (.hookError 0 "e2") =
      hostOnMessage ⟨1, [0], []⟩ (.hookError 0 "e1")) :=
  ⟨((hook_response_at_most_once ⟨1, [0], []⟩ 5 (.str "x") (.str "b") "e" "e2" []).2.1
      (by decide)).1,
   ((hook_response_at_most_once ⟨1, [0], []⟩ 0 (.str "a") (.str "b") "e" "e2" []).2.2.1
      (by decide)).2.1,
   ((hook_response_at_most_once ⟨1, [0], []⟩ 0 (.str "a") (.str "b") "e1" "e2" []).2.2.2
      (by decide)).2.2⟩
